import Mathlib

/-!
Verification of the BibliBot sermon RAG pipeline.

Shallow embedding of the repository's Python sources
(`retrieval.py`, `server.py`, `llm.py`, `ingestion/scrape_and_embed.py`,
`ingestion/upload_data.py`) as executable Lean definitions, together with
theorems settling the specification claims about the pipeline.

Conventions of the embedding:
* Python strings are Lean `String`s; `str.split()` / `str.strip()` / the
  regexes used by the code are modelled character-exactly over ASCII input
  (the pipeline passes everything through `remove_non_ascii` first).
* Python dicts keyed by strings are association lists with dict-style
  insert-or-overwrite (`dictSet`) and first-match lookup (`dictGet`).
* Similarity scores (Pinecone floats) are modelled as rationals; the only
  operation the code performs on them is comparison with the literal 0.25,
  which is exactly representable, so the order structure is faithful.
* External collaborators (Selenium page fetching, the embedding model, the
  Pinecone index, the Groq LLM) are oracle parameters, exactly at the call
  boundaries the code uses them.
* Fallible Python code returns `Except`/`Option`; a raised exception is an
  `Except.error`.
-/

set_option maxRecDepth 100000

namespace Biblibot

/-! ## Python string primitives -/

/-- The six ASCII whitespace characters matched by Python's `\s`,
`str.split()` and `str.strip()`. -/
def isPySpace (c : Char) : Bool :=
  c == ' ' || c == '\t' || c == '\n' || c == '\r' || c == '\x0b' || c == '\x0c'

/-- Helper for `pyWords`: returns (current word being built at the front,
completed words after it). -/
def pyWordsAux : List Char → List Char × List (List Char)
  | [] => ([], [])
  | c :: t =>
    let r := pyWordsAux t
    if isPySpace c then ([], if r.1.isEmpty then r.2 else r.1 :: r.2)
    else (c :: r.1, r.2)

/-- Python `str.split()` with no arguments on a character list: maximal runs
of non-whitespace characters, empty runs dropped. -/
def pyWords (l : List Char) : List (List Char) :=
  let r := pyWordsAux l
  if r.1.isEmpty then r.2 else r.1 :: r.2

/-- Python `str.split()` on a `String`. -/
def pySplitStr (s : String) : List String :=
  (pyWords s.data).map String.mk

/-- Drop trailing Python whitespace. -/
def dropTrailingWs : List Char → List Char
  | [] => []
  | c :: t =>
    let r := dropTrailingWs t
    if r.isEmpty && isPySpace c then [] else c :: r

/-- Python `str.strip()` on a character list. -/
def pyStripChars (l : List Char) : List Char :=
  dropTrailingWs (l.dropWhile isPySpace)

/-- Python `str.strip()` on a `String`. -/
def pyStripStr (s : String) : String :=
  String.mk (pyStripChars s.data)

/-- Python `str.lower()` (ASCII-faithful). -/
def pyLower (s : String) : String :=
  String.mk (s.data.map Char.toLower)

/-! ## Text normalizer (`scrape_and_embed.py`, `remove_non_ascii` and
`clean_content`) -/

/-- `remove_non_ascii`: `re.sub(r"[^\x00-\x7F]+", "", text or "")` — drop
every character above code point 127. -/
def remove_non_ascii (s : String) : String :=
  String.mk (s.data.filter (fun c => c.toNat ≤ 127))

/-- Position of the first `]` in the list occurring before any newline
(`.` in a Python regex without DOTALL does not match `\n`), if any. -/
def findCloseBracket : List Char → Option Nat
  | [] => none
  | c :: t =>
    if c == ']' then some 0
    else if c == '\n' then none
    else (findCloseBracket t).map (· + 1)

/-- Fuelled worker for `removeBrackets`; fuel `l.length` always suffices
because each step consumes at least one character. -/
def removeBracketsGo : Nat → List Char → List Char
  | _, [] => []
  | 0, l => l
  | fuel + 1, c :: t =>
    if c == '[' then
      match findCloseBracket t with
      | some k => ' ' :: removeBracketsGo fuel (t.drop (k + 1))
      | none => c :: removeBracketsGo fuel t
    else c :: removeBracketsGo fuel t

/-- `re.sub(r"\[.*?\]", " ", content)`: each bracketed span (lazily matched,
not crossing a newline) is replaced by a single space. -/
def removeBrackets (l : List Char) : List Char :=
  removeBracketsGo l.length l

/-- After the matched `summary`/`summarized` literal: `\s*:?\s*` (greedy
whitespace, optional colon, greedy whitespace) is also consumed. -/
def afterSummaryLabel (l : List Char) : List Char :=
  let l2 := l.dropWhile isPySpace
  let l3 := match l2 with
    | ':' :: t => t
    | _ => l2
  l3.dropWhile isPySpace

/-- `re.sub(r"^\s*(summary|summarized)\s*:?\s*", "", content, flags=IGNORECASE)`:
anchored at the start of the string only; removes at most one leading label. -/
def stripSummaryLabel (l : List Char) : List Char :=
  let l1 := l.dropWhile isPySpace
  let low := l1.map Char.toLower
  if low.take 10 = "summarized".data then afterSummaryLabel (l1.drop 10)
  else if low.take 7 = "summary".data then afterSummaryLabel (l1.drop 7)
  else l

/-- Worker for whitespace collapsing; the flag records whether the previous
character was part of a whitespace run already emitted as one space. -/
def collapseWsAux : List Char → Bool → List Char
  | [], _ => []
  | c :: t, prevSpace =>
    if isPySpace c then
      if prevSpace then collapseWsAux t true else ' ' :: collapseWsAux t true
    else c :: collapseWsAux t false

/-- `re.sub(r"\s+", " ", content)`: collapse every whitespace run to a single
space. -/
def collapseWs (l : List Char) : List Char :=
  collapseWsAux l false

/-- `clean_content` from `ingestion/scrape_and_embed.py` (lines 76–92):
bracket removal, a single leading Summary label strip, whitespace
normalization and strip; empty input gives the empty string. -/
def clean_content (content : String) : String :=
  if content = "" then ""
  else String.mk (pyStripChars (collapseWs (stripSummaryLabel (removeBrackets content.data))))

/-! ## Chunkers -/

/-- The sliding-window step of `scrape_and_embed.chunk_text`:
`max(1, chunk_size - overlap)` (Nat subtraction truncates at zero exactly as
`max` with a negative Python int would). -/
def chunkStep (chunk_size overlap : Nat) : Nat :=
  max 1 (chunk_size - overlap)

/-- Python `range(0, stop, step)` for a positive step. -/
def pyRangeStep (stop step : Nat) : List Nat :=
  (List.range ((stop + step - 1) / step)).map (· * step)

/-- `chunk_text` from `ingestion/scrape_and_embed.py` (lines 99–111):
word-based overlapping windows, step clamped to at least 1, empty-word input
short-circuits to `[]`, empty windows dropped. -/
def chunk_text (text : String) (chunk_size : Nat := 500) (overlap : Nat := 50) : List String :=
  let words := pySplitStr text
  if words.isEmpty then []
  else
    (pyRangeStep words.length (chunkStep chunk_size overlap)).filterMap fun i =>
      let chunk := pyStripStr (String.intercalate " " ((words.drop i).take chunk_size))
      if chunk = "" then none else some chunk

/-- Python `range(0, stop, step)` where the step is an arbitrary int:
a zero step raises `ValueError`, a negative step (from start 0) yields the
empty range. -/
def pyRangeSigned (stop : Nat) (step : Int) : Except String (List Nat) :=
  if step = 0 then .error "range() arg 3 must not be zero"
  else if step < 0 then .ok []
  else .ok (pyRangeStep stop step.toNat)

/-- `chunk_text` from `ingestion/upload_data.py` (lines 39–49): the step
`chunk_size - overlap` is NOT clamped, so `overlap = chunk_size` raises
`ValueError` inside `range` and `overlap > chunk_size` yields no chunks. -/
def chunk_text_upload (text : String) (chunk_size : Nat := 500) (overlap : Nat := 50) :
    Except String (List String) :=
  let words := pySplitStr text
  (pyRangeSigned words.length ((chunk_size : Int) - (overlap : Int))).map fun idxs =>
    idxs.filterMap fun i =>
      let chunk := String.intercalate " " ((words.drop i).take chunk_size)
      if chunk = "" then none else some chunk

/-! ## MD5 (`hashlib.md5(...).hexdigest()`)

Reference implementation of MD5 (RFC 1321) over byte lists, with 32-bit
words as naturals reduced mod 2^32. Both `generate_doc_id` variants call
`hashlib.md5` on the UTF-8 encoding of their input; for the ASCII strings
this development evaluates it on, the UTF-8 bytes are the code points. -/

/-- Reduce to a 32-bit word. -/
def u32 (n : Nat) : Nat := n % 4294967296

/-- Bitwise complement on 32-bit words. -/
def u32not (n : Nat) : Nat := 4294967295 - n

/-- Left-rotate a 32-bit word by `s` (0 < s < 32 in all uses). -/
def rotl32 (x s : Nat) : Nat :=
  (x * 2 ^ s + x / 2 ^ (32 - s)) % 4294967296

/-- The 64 MD5 sine-derived constants `K`. -/
def md5K : List Nat :=
  [0xd76aa478, 0xe8c7b756, 0x242070db, 0xc1bdceee,
   0xf57c0faf, 0x4787c62a, 0xa8304613, 0xfd469501,
   0x698098d8, 0x8b44f7af, 0xffff5bb1, 0x895cd7be,
   0x6b901122, 0xfd987193, 0xa679438e, 0x49b40821,
   0xf61e2562, 0xc040b340, 0x265e5a51, 0xe9b6c7aa,
   0xd62f105d, 0x02441453, 0xd8a1e681, 0xe7d3fbc8,
   0x21e1cde6, 0xc33707d6, 0xf4d50d87, 0x455a14ed,
   0xa9e3e905, 0xfcefa3f8, 0x676f02d9, 0x8d2a4c8a,
   0xfffa3942, 0x8771f681, 0x6d9d6122, 0xfde5380c,
   0xa4beea44, 0x4bdecfa9, 0xf6bb4b60, 0xbebfbc70,
   0x289b7ec6, 0xeaa127fa, 0xd4ef3085, 0x04881d05,
   0xd9d4d039, 0xe6db99e5, 0x1fa27cf8, 0xc4ac5665,
   0xf4292244, 0x432aff97, 0xab9423a7, 0xfc93a039,
   0x655b59c3, 0x8f0ccc92, 0xffeff47d, 0x85845dd1,
   0x6fa87e4f, 0xfe2ce6e0, 0xa3014314, 0x4e0811a1,
   0xf7537e82, 0xbd3af235, 0x2ad7d2bb, 0xeb86d391]

/-- The 64 MD5 per-round left-rotation amounts. -/
def md5S : List Nat :=
  [7, 12, 17, 22, 7, 12, 17, 22, 7, 12, 17, 22, 7, 12, 17, 22,
   5, 9, 14, 20, 5, 9, 14, 20, 5, 9, 14, 20, 5, 9, 14, 20,
   4, 11, 16, 23, 4, 11, 16, 23, 4, 11, 16, 23, 4, 11, 16, 23,
   6, 10, 15, 21, 6, 10, 15, 21, 6, 10, 15, 21, 6, 10, 15, 21]

/-- Running MD5 state. -/
structure MD5State where
  a : Nat
  b : Nat
  c : Nat
  d : Nat
deriving DecidableEq, Repr

/-- The round function of step `i`. -/
def md5F (i b c d : Nat) : Nat :=
  if i < 16 then (b &&& c) ||| (u32not b &&& d)
  else if i < 32 then (d &&& b) ||| (u32not d &&& c)
  else if i < 48 then b ^^^ c ^^^ d
  else c ^^^ (b ||| u32not d)

/-- The message-word index used at step `i`. -/
def md5G (i : Nat) : Nat :=
  if i < 16 then i
  else if i < 32 then (5 * i + 1) % 16
  else if i < 48 then (3 * i + 5) % 16
  else (7 * i) % 16

/-- One of the 64 steps of the MD5 compression function. -/
def md5Round (m : List Nat) (st : MD5State) (i : Nat) : MD5State :=
  let f := u32 (md5F i st.b st.c st.d + st.a + md5K.getD i 0 + m.getD (md5G i) 0)
  { a := st.d, b := u32 (st.b + rotl32 f (md5S.getD i 0)), c := st.b, d := st.c }

/-- Decode a 64-byte block into 16 little-endian 32-bit words. -/
def md5Words (block : List Nat) : List Nat :=
  (List.range 16).map fun j =>
    block.getD (4 * j) 0 + 256 * block.getD (4 * j + 1) 0 +
      65536 * block.getD (4 * j + 2) 0 + 16777216 * block.getD (4 * j + 3) 0

/-- Process one 64-byte block. -/
def md5Block (st : MD5State) (block : List Nat) : MD5State :=
  let r := (List.range 64).foldl (md5Round (md5Words block)) st
  { a := u32 (st.a + r.a), b := u32 (st.b + r.b), c := u32 (st.c + r.c), d := u32 (st.d + r.d) }

/-- MD5 padding: a 1-bit (byte 0x80), zeros to 56 mod 64, then the original
bit length as a 64-bit little-endian integer. -/
def md5Pad (msg : List Nat) : List Nat :=
  let padLen := (56 + 64 - (msg.length + 1) % 64) % 64
  let bits := msg.length * 8
  msg ++ [128] ++ List.replicate padLen 0 ++
    (List.range 8).map (fun j => bits / 256 ^ j % 256)

/-- Split the padded message into 64-byte blocks. -/
def md5Blocks (padded : List Nat) : List (List Nat) :=
  (List.range (padded.length / 64)).map fun b => (padded.drop (64 * b)).take 64

/-- One lowercase hex digit. -/
def hexDigit (n : Nat) : Char :=
  "0123456789abcdef".data.getD n '0'

/-- A byte as two lowercase hex digits. -/
def hexByte (b : Nat) : List Char :=
  [hexDigit (b / 16), hexDigit (b % 16)]

/-- A 32-bit word as 4 little-endian bytes in hex. -/
def hexWordLE (w : Nat) : List Char :=
  ((List.range 4).map fun j => hexByte (w / 256 ^ j % 256)).flatten

/-- `hashlib.md5(bytes).hexdigest()`. -/
def md5hex (msg : List Nat) : String :=
  let st := (md5Blocks (md5Pad msg)).foldl md5Block
    { a := 0x67452301, b := 0xefcdab89, c := 0x98badcfe, d := 0x10325476 }
  String.mk (hexWordLE st.a ++ hexWordLE st.b ++ hexWordLE st.c ++ hexWordLE st.d)

/-- UTF-8 bytes of an ASCII string (every string this development hashes is
ASCII, where UTF-8 bytes coincide with code points). -/
def strBytes (s : String) : List Nat :=
  s.data.map Char.toNat

/-! ## Document identity -/

/-- `generate_doc_id` from `ingestion/scrape_and_embed.py` (lines 95–96):
`hashlib.md5(url.encode()).hexdigest()` — a hash of the canonical URL alone. -/
def generate_doc_id (url : String) : String :=
  md5hex (strBytes url)

/-- `generate_doc_id` from `ingestion/upload_data.py` (lines 51–54):
`hashlib.md5(f"{title}|{url}".encode()).hexdigest()` — the title is part of
the hashed input. -/
def generate_doc_id_upload (title url : String) : String :=
  md5hex (strBytes (title ++ "|" ++ url))

/-! ## Python dict model -/

/-- First-match lookup, `d[k]` / `d.get(k)`. -/
def dictGet {α : Type} : List (String × α) → String → Option α
  | [], _ => none
  | (k, v) :: t, key => if k = key then some v else dictGet t key

/-- Dict assignment `d[k] = v`: overwrite in place if the key exists,
otherwise append. -/
def dictSet {α : Type} : List (String × α) → String → α → List (String × α)
  | [], k, v => [(k, v)]
  | (k', v') :: t, k, v => if k' = k then (k, v) :: t else (k', v') :: dictSet t k v

/-- The keys of a dict. -/
def dictKeys {α : Type} (d : List (String × α)) : List String :=
  d.map (·.1)

/-! ## Retrieval data model (Pinecone query results) -/

/-- The metadata dictionary attached to an index match; each field models
`metadata.get(...)` with its key possibly absent. -/
structure MetaRec where
  text : Option String
  title : Option String
  url : Option String
  category : Option String
deriving DecidableEq, Repr

/-- One Pinecone match: `{"id": ..., "score": ..., "metadata": {...}}`.
Scores (floats in Pinecone) are modelled as rationals; the code only ever
compares them with the literal `0.25`. -/
structure MatchRec where
  id : String
  score : Option ℚ
  metadata : Option MetaRec
deriving DecidableEq, Repr

/-- `retrieve` from `retrieval.py` (lines 18–64). The embedding call plus
`index.query` is the oracle `queryIndex`; `.error` models a raised exception
(caught, returning `[]`), `.ok none` models a response without a `matches`
key. No score filter appears anywhere in this function. -/
def retrieve (queryIndex : String → Nat → Except Unit (Option (List MatchRec)))
    (query : String) (top_k : Nat) : List String :=
  match queryIndex query top_k with
  | .error _ => []
  | .ok none => []
  | .ok (some ms) =>
    if ms.isEmpty then []
    else ms.filterMap fun m => m.metadata.bind (·.text)

/-! ## Server (`server.py`) -/

/-- A Flask response: body text and HTTP status. -/
structure HttpResponse where
  body : String
  status : Nat
deriving DecidableEq, Repr

/-- A cited source assembled by the chat handler. -/
structure SourceRec where
  title : String
  url : String
  category : String
deriving DecidableEq, Repr

/-- The greeting strings recognized by `chat` (server.py line 60). -/
def greetingsList : List String :=
  ["hi", "hello", "hey", "yo", "sup", "howdy", "greetings",
   "good morning", "good afternoon", "good evening"]

/-- The parameters of `generate_answer` in `llm.py` (line 32):
`(context, question, sources=None)`. -/
def generateAnswerParams : List String :=
  ["context", "question", "sources"]

/-- Python call semantics for `generate_answer(*pos, **kwargs)`: binding the
arguments raises `TypeError` when a keyword is not among the function's
parameters (or positional arguments overflow); only then does the body run,
whose outcome is the oracle `genResult`. -/
def callGenerateAnswer (pos : List String) (kwargs : List String) (genResult : String) :
    Except String String :=
  if pos.length ≤ generateAnswerParams.length
      ∧ kwargs.all (fun k => decide (k ∈ generateAnswerParams.drop pos.length)) then
    .ok genResult
  else
    .error "TypeError: generate_answer() got an unexpected keyword argument"

/-- The relevance filter of `chat` (server.py line 88):
`[m for m in res["matches"] if m.get("score", 0) > 0.25]`. -/
def relevantMatches (ms : List MatchRec) : List MatchRec :=
  ms.filter fun m => decide (mkRat 1 4 < m.score.getD 0)

/-- The context/source assembly loop of `chat` (server.py lines 97–117):
collect each match's metadata text, and one source per previously unseen
nonempty URL. -/
def buildContextSources : List MatchRec → List String → List String × List SourceRec
  | [], _ => ([], [])
  | m :: rest, seen =>
    match m.metadata with
    | none => buildContextSources rest seen
    | some md =>
      let chunkAdd := match md.text with
        | some t => [t]
        | none => []
      let url := md.url.getD ""
      if url ≠ "" ∧ url ∉ seen then
        let r := buildContextSources rest (url :: seen)
        (chunkAdd ++ r.1, ⟨md.title.getD "Sermon", url, md.category.getD "General"⟩ :: r.2)
      else
        let r := buildContextSources rest seen
        (chunkAdd ++ r.1, r.2)

/-- The generic apology returned by the `except` clause of `chat`
(server.py lines 154–158), with HTTP status 500. -/
def apologyResponse : HttpResponse :=
  ⟨"I apologize, but something went wrong on my end. Please try again in a moment.", 500⟩

/-- The indicator substrings scanned for in the generated answer
(server.py lines 132–137). -/
def noSermonIndicators : List String :=
  ["don\x27t have specific sermons", "don\x27t have sermons",
   "no sermons about", "sermons don\x27t cover"]

/-- Python `needle in hay` on strings. -/
def containsSub (hay needle : String) : Bool :=
  (List.range (hay.data.length + 1)).any fun i => needle.data.isPrefixOf (hay.data.drop i)

/-- The post-generation section of `chat` (server.py lines 125–152): empty
answers get a fixed message, then sermon links are appended when the answer
does not contain a no-sermon indicator and sources exist. -/
def postProcess (answer : String) (sources : List SourceRec) : HttpResponse :=
  if answer = "" then
    ⟨"I\x27m sorry, I couldn\x27t generate a proper response. Please try again.", 200⟩
  else
    let hasSermons := !(noSermonIndicators.any fun ind => containsSub (pyLower answer) ind)
    if hasSermons && !(sources.isEmpty) then
      ⟨answer ++ "\n\n📖 **Learn more from these sermons:**" ++
        String.join ((sources.take 3).map fun s =>
          "\n• [" ++ s.title ++ "](" ++ s.url ++ ")"), 200⟩
    else ⟨answer, 200⟩

/-- The `/chat` handler from `server.py` (lines 38–158). `body` is the JSON
body's `message` field (`none` = no JSON body); `queryOutcome` is the oracle
for the inline embed + `index.query` call (`.error` = exception, `.ok none` =
no `matches` key); `genResult` is the oracle for what `generate_answer`'s
body would produce were its argument binding to succeed. Every call to
`generate_answer` in the handler passes the keyword `has_sermon_content`. -/
def chat (body : Option String) (queryOutcome : Except Unit (Option (List MatchRec)))
    (genResult : String) : HttpResponse :=
  match body with
  | none => ⟨"No JSON data provided", 400⟩
  | some msg =>
    -- question = data.get("message", "").strip(); the local is written out
    -- as `pyStripStr msg` below.
    if pyStripStr msg = "" then ⟨"No message provided", 400⟩
    else if pyStripStr (pyLower (pyStripStr msg)) ∈ greetingsList
        ∨ (pySplitStr (pyStripStr msg)).length ≤ 2 then
      ⟨"Hello! I\x27m BibliBot, here to help you explore our sermons. Ask me about faith, grace, prayer, love, hope, or any Biblical topic!", 200⟩
    else
      match queryOutcome with
      | .error _ => apologyResponse
      | .ok resOpt =>
        match resOpt with
        | none =>
          -- generate_answer("", question, has_sermon_content=False)
          match callGenerateAnswer ["", pyStripStr msg] ["has_sermon_content"] genResult with
          | .error _ => apologyResponse
          | .ok a => ⟨a, 200⟩
        | some ms =>
          if ms.isEmpty then
            -- `not res["matches"]`: same no-match branch as a missing key
            match callGenerateAnswer ["", pyStripStr msg] ["has_sermon_content"] genResult with
            | .error _ => apologyResponse
            | .ok a => ⟨a, 200⟩
          else if (relevantMatches ms).isEmpty then
            -- generate_answer("", question, has_sermon_content=False)
            match callGenerateAnswer ["", pyStripStr msg] ["has_sermon_content"] genResult with
            | .error _ => apologyResponse
            | .ok a => ⟨a, 200⟩
          else
            -- context = "\n\n---\n\n".join(context_chunks);
            -- generate_answer(context, question, has_sermon_content=True)
            match callGenerateAnswer
                [String.intercalate "\n\n---\n\n" (buildContextSources (relevantMatches ms) []).1,
                 pyStripStr msg] ["has_sermon_content"] genResult with
            | .error _ => apologyResponse
            | .ok answer => postProcess answer (buildContextSources (relevantMatches ms) []).2

/-! ## Ingestion pipeline (`ingestion/scrape_and_embed.py`) -/

/-- One stored sermon value: `{"content": ..., "url": ..., "category": ...}`. -/
structure SermonInfo where
  content : String
  url : String
  category : String
deriving DecidableEq, Repr

/-- A sermon link collected from a category page: (url, link title,
category title). -/
abbrev SermonLink := String × String × String

/-- `existing_urls` (scrape_and_embed.py lines 169–173): the set of truthy
`url` fields of the previous snapshot's values. -/
def existingUrls (d : List (String × SermonInfo)) : List String :=
  (d.map (·.2.url)).filter (fun u => u ≠ "")

/-- The global URL dedup of collected sermon links (line 352–353):
keep the first occurrence of each URL. -/
def dedupByUrl : List SermonLink → List String → List SermonLink
  | [], _ => []
  | (u, t, c) :: rest, seen =>
    if u ∈ seen then dedupByUrl rest seen
    else (u, t, c) :: dedupByUrl rest (u :: seen)

/-- Python `"….html".replace(".html", "")` — remove every occurrence. -/
def removeHtmlAll : List Char → List Char
  | '.' :: 'h' :: 't' :: 'm' :: 'l' :: t => removeHtmlAll t
  | c :: t => c :: removeHtmlAll t
  | [] => []

/-- `url.rsplit("/", 1)[-1]`: the segment after the last slash (the whole
string when there is no slash). -/
def lastSegment (url : String) : String :=
  String.mk ((url.data.reverse.takeWhile (fun c => c ≠ '/')).reverse)

/-- The key-collision suffix source (line 392):
`sermon_url.rsplit("/", 1)[-1].replace(".html", "")`. -/
def sermonSlug (url : String) : String :=
  String.mk (removeHtmlAll (lastSegment url).data)

/-- The snapshot key chosen for a scraped sermon (lines 390–392): the final
title, disambiguated with a URL-derived suffix when that key is already
present with a different URL. -/
def storeKey (acc : List (String × SermonInfo)) (finalTitle url : String) : String :=
  match dictGet acc finalTitle with
  | some s => if s.url ≠ url then finalTitle ++ " (" ++ sermonSlug url ++ ")" else finalTitle
  | none => finalTitle

/-- One sermon visit (scrape_and_embed.py lines 370–400).
`fetch url = some (pageTitle, rawText)` abstracts `driver.get` plus
title/body extraction (`""` as pageTitle models a page with no usable
in-page title, making `page_title or sermon_title` fall back to the link
text); `none` models a raised per-sermon exception (logged and skipped).
Fetch failure or short cleaned content leaves the store unchanged;
otherwise the sermon is stored under its (possibly disambiguated) key,
with `cat_title or "General"` as the category. -/
def scrapeVisit (fetch : String → Option (String × String)) (url title cat : String)
    (acc : List (String × SermonInfo)) : List (String × SermonInfo) :=
  match fetch url with
  | none => acc
  | some (pageTitle, raw) =>
    if clean_content (remove_non_ascii raw) = ""
        ∨ (clean_content (remove_non_ascii raw)).length < 200 then acc
    else
      dictSet acc (storeKey acc (if pageTitle ≠ "" then pageTitle else title) url)
        ⟨clean_content (remove_non_ascii raw), url, if cat ≠ "" then cat else "General"⟩

def scrapeLoop (fetch : String → Option (String × String)) :
    List SermonLink → List String → List String → List (String × SermonInfo) →
    List (String × SermonInfo)
  | [], _, _, acc => acc
  | (url, title, cat) :: rest, ex, visited, acc =>
    if url ∈ visited then scrapeLoop fetch rest ex visited acc
    else if url ∈ ex then scrapeLoop fetch rest ex (url :: visited) acc
    else scrapeLoop fetch rest ex (url :: visited) (scrapeVisit fetch url title cat acc)

/-- `scrape_sermons` (lines 154–424) restricted to its pure core: globally
dedup the collected sermon links by URL, then visit each at most once,
skipping URLs already present in the previous snapshot. -/
def scrapeSermons (links : List SermonLink) (ex : List String)
    (fetch : String → Option (String × String)) : List (String × SermonInfo) :=
  scrapeLoop fetch (dedupByUrl links []) ex [] []

/-- The sync classification loop of `main` (lines 511–519): a key absent
from the previous snapshot is new; a key present in both with a different
URL is updated; otherwise it is left unclassified (unchanged). Returns
(new, updated). -/
def classifySync (existing : List (String × SermonInfo)) :
    List (String × SermonInfo) →
    List (String × SermonInfo) × List (String × SermonInfo)
  | [] => ([], [])
  | (t, s) :: rest =>
    let r := classifySync existing rest
    match dictGet existing t with
    | none => ((t, s) :: r.1, r.2)
    | some e => if s.url ≠ e.url then (r.1, (t, s) :: r.2) else r

/-- A staged Pinecone record (scrape_and_embed.py lines 449–462). The float
embedding vector itself is produced by the external embedding model and is
not part of the identity/metadata the claims concern. -/
structure VectorRec where
  id : String
  text : String
  title : String
  url : String
  category : String
  chunkIndex : Nat
  totalChunks : Nat
deriving DecidableEq, Repr

/-- The vector-staging loop of `embed_and_upsert` (lines 431–465): skip
sermons with empty or sub-50-character content, chunk the rest, and stage
one record per chunk with id `md5(url) ++ "_chunk_" ++ i`. -/
def stageVectors (sermons : List (String × SermonInfo)) : List VectorRec :=
  (sermons.map fun ts =>
    let content := ts.2.content
    if content = "" ∨ content.length < 50 then []
    else
      let chunks := chunk_text content 500 50
      chunks.enum.map fun ic =>
        { id := generate_doc_id ts.2.url ++ "_chunk_" ++ toString ic.1
          text := ic.2
          title := ts.1
          url := ts.2.url
          category := ts.2.category
          chunkIndex := ic.1
          totalChunks := chunks.length }).flatten

/-- Fuelled worker for `batches100`; fuel `l.length` always suffices. -/
def batchesGo {α : Type} : Nat → List α → List (List α)
  | _, [] => []
  | 0, l => [l]
  | fuel + 1, l => l.take 100 :: batchesGo fuel (l.drop 100)

/-- The batch slicing `vectors[i : i + 100]` for
`i in range(0, len(vectors), 100)` (lines 473–475). -/
def batches100 {α : Type} (l : List α) : List (List α) :=
  batchesGo l.length l

/-- The upsert loop of `embed_and_upsert` (lines 474–482): upsert batches in
order; on the first failing batch, log and `return False` — the remaining
batches are NOT attempted. `fail k` says whether `index.upsert` raises on
the k-th batch. Returns the batches actually handed to the index and the
function's boolean result. -/
def upsertLoop {α : Type} : List (List α) → (Nat → Bool) → Nat → List (List α) × Bool
  | [], _, _ => ([], true)
  | b :: rest, fail, k =>
    if fail k then ([], false)
    else
      let r := upsertLoop rest fail (k + 1)
      (b :: r.1, r.2)

/-- `embed_and_upsert` (lines 427–491): stage vectors, return `False` when
none were staged, otherwise upsert in batches of 100. -/
def embedAndUpsert (sermons : List (String × SermonInfo)) (fail : Nat → Bool) :
    List (List VectorRec) × Bool :=
  let vectors := stageVectors sermons
  if vectors.isEmpty then ([], false)
  else upsertLoop (batches100 vectors) fail 0

/-- `main` (lines 494–540): scrape against the previous snapshot, exit
without touching the snapshot when nothing was scraped, otherwise FIRST
persist the freshly scraped mapping as the new snapshot (line 527,
`save_sermons(current_sermons, json_file)`) and THEN upsert it (line 530).
Returns `none` for the early `sys.exit(1)`, otherwise the persisted
snapshot together with the upsert outcome. -/
def mainRun (existing : List (String × SermonInfo)) (links : List SermonLink)
    (fetch : String → Option (String × String)) (fail : Nat → Bool) :
    Option (List (String × SermonInfo) × (List (List VectorRec) × Bool)) :=
  let current := scrapeSermons links (existingUrls existing) fetch
  if current.isEmpty then none
  else some (current, embedAndUpsert current fail)

/-! ## Helper lemmas -/

theorem mem_dictSet {α : Type} {d : List (String × α)} {k : String} {v : α} :
    ∀ kv ∈ dictSet d k v, kv ∈ d ∨ kv = (k, v) := by
  induction d with
  | nil =>
    intro kv hm
    simp [dictSet] at hm
    right; exact hm
  | cons hd t ih =>
    intro kv hm
    obtain ⟨k', v'⟩ := hd
    by_cases he : k' = k
    · simp only [dictSet, if_pos he] at hm
      rcases List.mem_cons.mp hm with hm | hm
      · right; exact hm
      · left; exact List.mem_cons_of_mem _ hm
    · simp only [dictSet, if_neg he] at hm
      rcases List.mem_cons.mp hm with hm | hm
      · left; exact hm ▸ List.mem_cons_self _ _
      · rcases ih kv hm with hm' | hm'
        · left; exact List.mem_cons_of_mem _ hm'
        · right; exact hm'

theorem dictGet_mem {α : Type} {d : List (String × α)} {k : String} {v : α}
    (h : dictGet d k = some v) : (k, v) ∈ d := by
  induction d with
  | nil => simp [dictGet] at h
  | cons hd t ih =>
    obtain ⟨k', v'⟩ := hd
    by_cases he : k' = k
    · simp only [dictGet, if_pos he] at h
      cases h
      subst he
      exact List.mem_cons_self _ _
    · simp only [dictGet, if_neg he] at h
      exact List.mem_cons_of_mem _ (ih h)

/-! ## C3: index-writer batching -/

theorem batchesGo_bounded {α : Type} :
    ∀ (fuel : Nat) (l : List α), l.length ≤ fuel →
      ∀ b ∈ batchesGo fuel l, b.length ≤ 100 ∧ b ≠ [] := by
  intro fuel
  induction fuel with
  | zero =>
    intro l hl b hb
    have hnil : l = [] := List.eq_nil_of_length_eq_zero (Nat.le_zero.mp hl)
    subst hnil
    simp [batchesGo] at hb
  | succ n ih =>
    intro l hl b hb
    cases l with
    | nil => simp [batchesGo] at hb
    | cons x t =>
      rw [show batchesGo (n + 1) (x :: t) = (x :: t).take 100 :: batchesGo n ((x :: t).drop 100)
        from rfl] at hb
      rcases List.mem_cons.mp hb with hb | hb
      · subst hb
        refine ⟨by simp, by simp⟩
      · refine ih _ ?_ b hb
        have := List.length_drop 100 (x :: t)
        simp at hl ⊢
        omega

theorem batches100_bounded {α : Type} (l : List α) :
    ∀ b ∈ batches100 l, b.length ≤ 100 ∧ b ≠ [] :=
  batchesGo_bounded l.length l le_rfl

theorem upsertLoop_all_ok {α : Type} :
    ∀ (bs : List (List α)) (fail : Nat → Bool) (k : Nat),
      (∀ j, j < bs.length → fail (k + j) = false) →
      upsertLoop bs fail k = (bs, true) := by
  intro bs
  induction bs with
  | nil => intro fail k _; rfl
  | cons b rest ih =>
    intro fail k h
    have h0 : fail k = false := by simpa using h 0 (by simp)
    rw [upsertLoop, h0]
    simp only [Bool.false_eq_true, if_false]
    rw [ih fail (k + 1) (fun j hj => by
      have := h (j + 1) (by simpa using Nat.succ_lt_succ hj)
      simpa [Nat.add_assoc, Nat.add_comm 1 j] using this)]

theorem upsertLoop_first_fail {α : Type} :
    ∀ (bs : List (List α)) (fail : Nat → Bool) (k j : Nat),
      j < bs.length → fail (k + j) = true → (∀ i, i < j → fail (k + i) = false) →
      upsertLoop bs fail k = (bs.take j, false) := by
  intro bs
  induction bs with
  | nil => intro fail k j hj; simp at hj
  | cons b rest ih =>
    intro fail k j hj hfail hpre
    cases j with
    | zero =>
      simp only [Nat.add_zero] at hfail
      rw [upsertLoop, hfail]
      simp
    | succ j' =>
      have h0 : fail k = false := by simpa using hpre 0 (Nat.succ_pos _)
      rw [upsertLoop, h0]
      simp only [Bool.false_eq_true, if_false]
      rw [ih fail (k + 1) j' (by simpa using Nat.lt_of_succ_lt_succ hj)
        (by simpa [Nat.add_assoc, Nat.add_comm 1 j'] using hfail)
        (fun i hi => by
          have := hpre (i + 1) (Nat.succ_lt_succ hi)
          simpa [Nat.add_assoc, Nat.add_comm 1 i] using this)]
      simp [List.take]

/-- C3 (counterexample): with 150 staged records the writer forms two
batches; when the first batch's upsert raises, the loop hands nothing
further to the index and returns the bare boolean `false` — it does not
continue with the remaining batch, contradicting the claim that the run
continues and that partial success is visible in a returned count. -/
theorem C3_counterexample :
    (batches100 (List.range 150)).length = 2
    ∧ upsertLoop (batches100 (List.range 150)) (fun k => k == 0) 0 = ([], false) := by
  constructor
  · rfl
  · rfl

/-- C3 (amended): the index writer upserts in fixed-size batches of at most
100 records; when no batch fails every batch is upserted and the function
returns `True`, but when a batch's upsert first fails at position `j`, the
function immediately returns `False` — only the batches before `j` were
upserted and the remaining batches are never attempted, with no partial
count reported. -/
theorem C3_batching {α : Type} (vectors : List α) (fail : Nat → Bool) :
    (∀ b ∈ batches100 vectors, b.length ≤ 100 ∧ b ≠ [])
    ∧ ((∀ k, k < (batches100 vectors).length → fail k = false) →
        upsertLoop (batches100 vectors) fail 0 = (batches100 vectors, true))
    ∧ (∀ j, j < (batches100 vectors).length → fail j = true →
        (∀ i, i < j → fail i = false) →
        upsertLoop (batches100 vectors) fail 0 = ((batches100 vectors).take j, false)) := by
  refine ⟨batches100_bounded vectors, ?_, ?_⟩
  · intro h
    exact upsertLoop_all_ok _ fail 0 (fun j hj => by simpa using h j hj)
  · intro j hj hfail hpre
    exact upsertLoop_first_fail _ fail 0 j hj (by simpa using hfail)
      (fun i hi => by simpa using hpre i hi)

/-- Witness for C3_batching at a concrete staged list with no failures. -/
theorem C3_batching_witness :
    upsertLoop (batches100 (List.range 150)) (fun _ => false) 0
      = (batches100 (List.range 150), true) :=
  (C3_batching (List.range 150) (fun _ => false)).2.1 (fun _ _ => rfl)

/-! ## C2: every sermon-path /chat request dies on the `has_sermon_content`
keyword -/

theorem callGenerateAnswer_kwarg (c q g : String) :
    callGenerateAnswer [c, q] ["has_sermon_content"] g
      = .error "TypeError: generate_answer() got an unexpected keyword argument" := by
  simp [callGenerateAnswer, generateAnswerParams]

/-- C2: for every `/chat` request whose message is neither a recognized
greeting nor at most two words, the handler reaches a call to
`generate_answer` carrying the keyword argument `has_sermon_content`, which
is not among `generate_answer`'s parameters `(context, question, sources)`;
the resulting `TypeError` is caught by the handler's `except` clause, so the
endpoint returns the generic apology with HTTP status 500 on every such
request — whatever the retrieval outcome and whatever answer the LLM body
would have produced. -/
theorem C2_chat_always_apologizes (msg : String)
    (queryOutcome : Except Unit (Option (List MatchRec))) (genResult : String)
    (hgreet : pyStripStr (pyLower (pyStripStr msg)) ∉ greetingsList)
    (hlen : 2 < (pySplitStr (pyStripStr msg)).length) :
    chat (some msg) queryOutcome genResult = apologyResponse := by
  have hq : ¬(pyStripStr msg = "") := by
    intro h
    rw [h] at hlen
    exact absurd hlen (by decide)
  have hcond : ¬(pyStripStr (pyLower (pyStripStr msg)) ∈ greetingsList
      ∨ (pySplitStr (pyStripStr msg)).length ≤ 2) := by
    rintro (h | h)
    · exact hgreet h
    · omega
  rw [chat.eq_def]
  simp only [if_neg hq, if_neg hcond]
  cases queryOutcome with
  | error e => rfl
  | ok resOpt =>
    cases resOpt with
    | none => simp [callGenerateAnswer_kwarg]
    | some ms =>
      by_cases hms : ms.isEmpty = true
      · simp [hms, callGenerateAnswer_kwarg]
      · by_cases hrel : (relevantMatches ms).isEmpty = true
        · simp [hms, hrel, callGenerateAnswer_kwarg]
        · simp [hms, hrel, callGenerateAnswer_kwarg]

/-- Witness for C2 at a concrete non-greeting three-word question. -/
theorem C2_witness :
    chat (some "What is faith about") (.ok (some [])) "a grounded answer" = apologyResponse :=
  C2_chat_always_apologizes "What is faith about" (.ok (some [])) "a grounded answer"
    (by decide) (by decide)

/-! ## C1: relevance gate -/

/-- A single below-threshold match (similarity score 0.1) carrying text. -/
def lowMatch : MatchRec :=
  { id := "chunk-low"
    score := some (mkRat 1 10)
    metadata := some
      { text := some "irrelevant low-score text"
        title := some "Some Sermon"
        url := some "https://www.insightfulsermons.com/some-sermon.html"
        category := some "General" } }

/-- An index whose top match for any query scores 0.1 (what a populated
index returns for a nonsense query). -/
def lowScoreIndex : String → Nat → Except Unit (Option (List MatchRec)) :=
  fun _ _ => .ok (some [lowMatch])

/-- C1 (counterexample): `retrieve` in `retrieval.py` applies no relevance
gate — for the nonsense query against a populated index whose only match
scores 0.1 (at/below the 0.25 threshold), the match's text is returned as a
grounding chunk, neither dropped nor flagged. -/
theorem C1_counterexample :
    lowMatch.score.getD 0 ≤ mkRat 1 4
    ∧ lowScoreIndex "asdkjasdj_nonsense_query" 5 = .ok (some [lowMatch])
    ∧ retrieve lowScoreIndex "asdkjasdj_nonsense_query" 5 = ["irrelevant low-score text"] := by
  refine ⟨by decide, rfl, rfl⟩

theorem buildCS_chunk_mem :
    ∀ (ms : List MatchRec) (seen : List String),
      ∀ t ∈ (buildContextSources ms seen).1,
        ∃ m ∈ ms, m.metadata.bind (·.text) = some t := by
  intro ms
  induction ms with
  | nil => intro seen t ht; simp [buildContextSources] at ht
  | cons m rest ih =>
    intro seen t ht
    rcases hmd : m.metadata with _ | md
    · simp only [buildContextSources, hmd] at ht
      obtain ⟨m', hm', hm't⟩ := ih seen t ht
      exact ⟨m', List.mem_cons_of_mem _ hm', hm't⟩
    · simp only [buildContextSources, hmd] at ht
      by_cases hurl : md.url.getD "" ≠ "" ∧ md.url.getD "" ∉ seen
      · rw [if_pos hurl] at ht
        rcases List.mem_append.mp ht with hta | htr
        · refine ⟨m, List.mem_cons_self _ _, ?_⟩
          rw [hmd]
          rcases htext : md.text with _ | t'
          · rw [htext] at hta; simp at hta
          · rw [htext] at hta
            simp at hta
            simp [htext, hta]
        · obtain ⟨m', hm', hm't⟩ := ih _ t htr
          exact ⟨m', List.mem_cons_of_mem _ hm', hm't⟩
      · rw [if_neg hurl] at ht
        rcases List.mem_append.mp ht with hta | htr
        · refine ⟨m, List.mem_cons_self _ _, ?_⟩
          rw [hmd]
          rcases htext : md.text with _ | t'
          · rw [htext] at hta; simp at hta
          · rw [htext] at hta
            simp at hta
            simp [htext, hta]
        · obtain ⟨m', hm', hm't⟩ := ih _ t htr
          exact ⟨m', List.mem_cons_of_mem _ hm', hm't⟩

theorem buildCS_source_mem :
    ∀ (ms : List MatchRec) (seen : List String),
      ∀ src ∈ (buildContextSources ms seen).2,
        ∃ m ∈ ms, ∃ md, m.metadata = some md ∧ md.url.getD "" = src.url := by
  intro ms
  induction ms with
  | nil => intro seen src hs; simp [buildContextSources] at hs
  | cons m rest ih =>
    intro seen src hs
    rcases hmd : m.metadata with _ | md
    · simp only [buildContextSources, hmd] at hs
      obtain ⟨m', hm', hrest⟩ := ih seen src hs
      exact ⟨m', List.mem_cons_of_mem _ hm', hrest⟩
    · simp only [buildContextSources, hmd] at hs
      by_cases hurl : md.url.getD "" ≠ "" ∧ md.url.getD "" ∉ seen
      · rw [if_pos hurl] at hs
        rcases List.mem_cons.mp hs with hs | hs
        · exact ⟨m, List.mem_cons_self _ _, md, hmd, by rw [hs]⟩
        · obtain ⟨m', hm', hrest⟩ := ih _ src hs
          exact ⟨m', List.mem_cons_of_mem _ hm', hrest⟩
      · rw [if_neg hurl] at hs
        obtain ⟨m', hm', hrest⟩ := ih _ src hs
        exact ⟨m', List.mem_cons_of_mem _ hm', hrest⟩

/-- C1 (amended): the gate lives in the `/chat` handler, not in
`retrieval.retrieve`. The handler's filter keeps exactly the matches whose
score is strictly above 0.25, and every grounding chunk and every cited
source it assembles originates from such a gated match; `retrieve` in
`retrieval.py` returns every match's text with no score gate (see the
counterexample). -/
theorem C1_chat_gate (ms : List MatchRec) :
    (∀ m ∈ relevantMatches ms, mkRat 1 4 < m.score.getD 0)
    ∧ (∀ t ∈ (buildContextSources (relevantMatches ms) []).1,
        ∃ m ∈ ms, mkRat 1 4 < m.score.getD 0 ∧ m.metadata.bind (·.text) = some t)
    ∧ (∀ src ∈ (buildContextSources (relevantMatches ms) []).2,
        ∃ m ∈ ms, mkRat 1 4 < m.score.getD 0
          ∧ ∃ md, m.metadata = some md ∧ md.url.getD "" = src.url) := by
  have hgate : ∀ m ∈ relevantMatches ms, mkRat 1 4 < m.score.getD 0 := by
    intro m hm
    have := (List.mem_filter.mp hm).2
    exact of_decide_eq_true this
  have hsub : ∀ m ∈ relevantMatches ms, m ∈ ms := fun m hm => (List.mem_filter.mp hm).1
  refine ⟨hgate, ?_, ?_⟩
  · intro t ht
    obtain ⟨m, hm, hmt⟩ := buildCS_chunk_mem (relevantMatches ms) [] t ht
    exact ⟨m, hsub m hm, hgate m hm, hmt⟩
  · intro src hs
    obtain ⟨m, hm, hrest⟩ := buildCS_source_mem (relevantMatches ms) [] src hs
    exact ⟨m, hsub m hm, hgate m hm, hrest⟩

/-- A single above-threshold match (similarity score 0.9). -/
def highMatch : MatchRec :=
  { id := "chunk-high"
    score := some (mkRat 9 10)
    metadata := some
      { text := some "Faith is trust in what is unseen."
        title := some "On Faith"
        url := some "https://www.insightfulsermons.com/faith.html"
        category := some "Faith" } }

/-- Witness for C1_chat_gate: the surviving match of a concrete filtered
list scores strictly above the threshold. -/
theorem C1_chat_gate_witness : mkRat 1 4 < highMatch.score.getD 0 :=
  (C1_chat_gate [lowMatch, highMatch]).1 highMatch (by decide)

/-! ## C6: document identity -/

theorem stageVectors_id_shape :
    ∀ (sermons : List (String × SermonInfo)), ∀ v ∈ stageVectors sermons,
      v.id = generate_doc_id v.url ++ "_chunk_" ++ toString v.chunkIndex := by
  intro sermons v hv
  obtain ⟨l, hl, hvl⟩ := List.mem_flatten.mp hv
  obtain ⟨ts, _, hts⟩ := List.mem_map.mp hl
  subst hts
  by_cases hc : ts.2.content = "" ∨ ts.2.content.length < 50
  · rw [if_pos hc] at hvl
    simp at hvl
  · rw [if_neg hc] at hvl
    obtain ⟨ic, _, hic⟩ := List.mem_map.mp hvl
    subst hic
    rfl

/-- C6 (amended): in `scrape_and_embed.py`, `generate_doc_id` hashes the
canonical URL alone, so the staged chunk ids are unchanged when only a
document's title is edited, and every staged record's id is a pure function
of its URL and chunk index; in `upload_data.py`, by contrast,
`generate_doc_id` hashes `title|url`, so editing the title does change the
document id (see the counterexample). -/
theorem C6_id_from_url_alone :
    (∀ t1 t2 content url cat,
      (stageVectors [(t1, ⟨content, url, cat⟩)]).map (·.id)
        = (stageVectors [(t2, ⟨content, url, cat⟩)]).map (·.id))
    ∧ (∀ sermons, ∀ v ∈ stageVectors sermons,
        v.id = generate_doc_id v.url ++ "_chunk_" ++ toString v.chunkIndex) := by
  refine ⟨?_, stageVectors_id_shape⟩
  intro t1 t2 content url cat
  by_cases hc : content = "" ∨ content.length < 50
  · simp [stageVectors, hc]
  · simp [stageVectors, hc, List.map_map]

/-- C6 (counterexample): `upload_data.generate_doc_id` hashes the title into
the identity — editing the title of the same canonical URL changes the
document id, contradicting the claim that the id is a hash of the canonical
URL alone. -/
theorem C6_counterexample :
    generate_doc_id_upload "On Faith" "https://www.insightfulsermons.com/faith.html"
      ≠ generate_doc_id_upload "On Faith Revised" "https://www.insightfulsermons.com/faith.html"
    ∧ generate_doc_id "https://www.insightfulsermons.com/faith.html"
      = "3ff9595843c204169a9729d8de6a48bc" := by
  constructor
  · decide
  · decide

/-- A 200-character valid sermon body used by concrete witnesses. -/
def demoContent : String := String.mk (List.replicate 200 'a')

/-- The record staged for `demoContent` at a demo URL. -/
def c6vec : VectorRec :=
  { id := generate_doc_id "https://w/d.html" ++ "_chunk_" ++ toString 0
    text := demoContent
    title := "T"
    url := "https://w/d.html"
    category := "C"
    chunkIndex := 0
    totalChunks := 1 }

/-- Witness for C6_id_from_url_alone at a concrete staged record. -/
theorem C6_witness :
    c6vec.id = generate_doc_id c6vec.url ++ "_chunk_" ++ toString c6vec.chunkIndex :=
  C6_id_from_url_alone.2 [("T", ⟨demoContent, "https://w/d.html", "C"⟩)] c6vec (by decide)

/-! ## C7: chunker totality -/

theorem pyRangeStep_count_le (n step : Nat) (hstep : 1 ≤ step) :
    (pyRangeStep n step).length ≤ n := by
  rw [pyRangeStep, List.length_map, List.length_range]
  have h1 : n + step - 1 ≤ step - 1 + step * n := by
    have := Nat.le_mul_of_pos_left n (show 0 < step by omega)
    omega
  calc (n + step - 1) / step ≤ (step - 1 + step * n) / step := Nat.div_le_div_right h1
    _ = (step - 1) / step + n := by rw [Nat.add_mul_div_left _ _ (by omega : 0 < step)]
    _ = n := by rw [Nat.div_eq_of_lt (by omega)]; omega

/-- C7 (amended): `scrape_and_embed.chunk_text` is total for every text,
chunk size and overlap: it returns a finite sequence of at most one chunk
per word, yields the empty sequence on empty input, and clamps its window
step to exactly 1 whenever `overlap ≥ size`. The `upload_data.py` variant
does not clamp: for `overlap > size` it returns an empty chunk list (its
range is empty), and for `overlap = size` it raises `ValueError` (see the
counterexample). -/
theorem C7_chunker_total (text : String) (size overlap : Nat) :
    (chunk_text text size overlap).length ≤ (pySplitStr text).length
    ∧ chunk_text "" size overlap = []
    ∧ (size ≤ overlap → chunkStep size overlap = 1)
    ∧ (size < overlap → chunk_text_upload text size overlap = .ok []) := by
  refine ⟨?_, rfl, ?_, ?_⟩
  · rw [chunk_text]
    by_cases hw : (pySplitStr text).isEmpty
    · simp [hw]
    · simp only [hw, if_false]
      calc ((pyRangeStep (pySplitStr text).length (chunkStep size overlap)).filterMap _).length
          ≤ (pyRangeStep (pySplitStr text).length (chunkStep size overlap)).length :=
            List.length_filterMap_le _ _
        _ ≤ (pySplitStr text).length :=
            pyRangeStep_count_le _ _ (le_max_left 1 _)
  · intro h
    simp [chunkStep, Nat.sub_eq_zero_of_le h]
  · intro h
    have hne : ¬((size : Int) - (overlap : Int) = 0) := by omega
    have hlt : (size : Int) - (overlap : Int) < 0 := by omega
    simp only [chunk_text_upload, pyRangeSigned, if_neg hne, if_pos hlt]
    rfl

/-- Witness for C7_chunker_total with overlap strictly above the size. -/
theorem C7_witness : chunk_text_upload "a b c" 3 5 = .ok [] :=
  (C7_chunker_total "a b c" 3 5).2.2.2 (by omega)

/-- C7 (counterexample): the `upload_data.py` chunker raises `ValueError`
when overlap equals the chunk size — `range(0, len(words), 0)` — so the
claim that the chunker never raises for overlap ≥ size fails on that
variant. -/
theorem C7_counterexample :
    chunk_text_upload "a b c" 5 5 = .error "range() arg 3 must not be zero" := by
  rfl

/-! ## Scrape-loop invariants -/

/-- Case analysis for one visit: either the store is unchanged, or exactly
one sermon was stored whose URL is the visited URL and whose content is the
valid (≥ 200 chars) normalization of the fetched page body. -/
theorem scrapeVisit_cases (fetch : String → Option (String × String))
    (url title cat : String) (acc : List (String × SermonInfo)) :
    scrapeVisit fetch url title cat acc = acc
    ∨ ∃ key pageTitle raw, fetch url = some (pageTitle, raw)
        ∧ ¬(clean_content (remove_non_ascii raw) = ""
            ∨ (clean_content (remove_non_ascii raw)).length < 200)
        ∧ scrapeVisit fetch url title cat acc
            = dictSet acc key
                ⟨clean_content (remove_non_ascii raw), url,
                  if cat ≠ "" then cat else "General"⟩ := by
  rcases hf : fetch url with _ | tp
  · left; simp [scrapeVisit, hf]
  · obtain ⟨pageTitle, raw⟩ := tp
    by_cases hshort : clean_content (remove_non_ascii raw) = ""
        ∨ (clean_content (remove_non_ascii raw)).length < 200
    · left; simp [scrapeVisit, hf, hshort]
    · right
      refine ⟨storeKey acc (if pageTitle ≠ "" then pageTitle else title) url,
        pageTitle, raw, rfl, hshort, ?_⟩
      simp [scrapeVisit, hf, hshort]

/-- Every sermon stored by the visit loop has valid (≥ 200 characters)
cleaned content that is the normalization of what `fetch` returned for its
own URL. -/
theorem scrapeLoop_stored_valid (fetch : String → Option (String × String)) :
    ∀ (links : List SermonLink) (ex visited : List String)
      (acc : List (String × SermonInfo)),
      (∀ kv ∈ acc, 200 ≤ kv.2.content.length ∧
        ∃ tp, fetch kv.2.url = some tp ∧ kv.2.content = clean_content (remove_non_ascii tp.2)) →
      ∀ kv ∈ scrapeLoop fetch links ex visited acc,
        200 ≤ kv.2.content.length ∧
        ∃ tp, fetch kv.2.url = some tp ∧ kv.2.content = clean_content (remove_non_ascii tp.2) := by
  intro links
  induction links with
  | nil => intro ex visited acc hacc kv hkv; exact hacc kv hkv
  | cons lk rest ih =>
    obtain ⟨url, title, cat⟩ := lk
    intro ex visited acc hacc kv hkv
    rw [scrapeLoop] at hkv
    by_cases hv : url ∈ visited
    · rw [if_pos hv] at hkv; exact ih ex visited acc hacc kv hkv
    · rw [if_neg hv] at hkv
      by_cases hex : url ∈ ex
      · rw [if_pos hex] at hkv; exact ih ex _ acc hacc kv hkv
      · rw [if_neg hex] at hkv
        refine ih ex _ _ ?_ kv hkv
        intro kv' hkv'
        rcases scrapeVisit_cases fetch url title cat acc with hsame | hstore
        · rw [hsame] at hkv'; exact hacc kv' hkv'
        · obtain ⟨key, pageTitle, raw, hf, hshort, hset⟩ := hstore
          rw [hset] at hkv'
          rcases mem_dictSet kv' hkv' with hold | hnew
          · exact hacc kv' hold
          · subst hnew
            push_neg at hshort
            refine ⟨?_, ⟨(pageTitle, raw), hf, rfl⟩⟩
            show 200 ≤ (clean_content (remove_non_ascii raw)).length
            omega

/-- Every sermon stored by the visit loop has a URL outside the
previously-indexed URL set `ex`. -/
theorem scrapeLoop_url_not_ex (fetch : String → Option (String × String)) :
    ∀ (links : List SermonLink) (ex visited : List String)
      (acc : List (String × SermonInfo)),
      (∀ kv ∈ acc, kv.2.url ∉ ex) →
      ∀ kv ∈ scrapeLoop fetch links ex visited acc, kv.2.url ∉ ex := by
  intro links
  induction links with
  | nil => intro ex visited acc hacc kv hkv; exact hacc kv hkv
  | cons lk rest ih =>
    obtain ⟨url, title, cat⟩ := lk
    intro ex visited acc hacc kv hkv
    rw [scrapeLoop] at hkv
    by_cases hv : url ∈ visited
    · rw [if_pos hv] at hkv; exact ih ex visited acc hacc kv hkv
    · rw [if_neg hv] at hkv
      by_cases hex : url ∈ ex
      · rw [if_pos hex] at hkv; exact ih ex _ acc hacc kv hkv
      · rw [if_neg hex] at hkv
        refine ih ex _ _ ?_ kv hkv
        intro kv' hkv'
        rcases scrapeVisit_cases fetch url title cat acc with hsame | hstore
        · rw [hsame] at hkv'; exact hacc kv' hkv'
        · obtain ⟨key, pageTitle, raw, _, _, hset⟩ := hstore
          rw [hset] at hkv'
          rcases mem_dictSet kv' hkv' with hold | hnew
          · exact hacc kv' hold
          · subst hnew; exact hex

theorem mem_map_dictSet {f : String × SermonInfo → String}
    {d : List (String × SermonInfo)} {k : String} {v : SermonInfo} :
    ∀ x ∈ (dictSet d k v).map f, x ∈ d.map f ∨ x = f (k, v) := by
  intro x hx
  obtain ⟨kv, hkv, hfx⟩ := List.mem_map.mp hx
  rcases mem_dictSet kv hkv with hold | hnew
  · left; exact hfx ▸ List.mem_map_of_mem f hold
  · right; rw [← hfx, hnew]

theorem dictSet_urls_nodup :
    ∀ (d : List (String × SermonInfo)) (k : String) (v : SermonInfo),
      (d.map (·.2.url)).Nodup → v.url ∉ d.map (·.2.url) →
      ((dictSet d k v).map (·.2.url)).Nodup := by
  intro d
  induction d with
  | nil => intro k v _ _; simp [dictSet]
  | cons hd t ih =>
    intro k v hnd hvn
    obtain ⟨k', v'⟩ := hd
    simp only [List.map_cons, List.nodup_cons] at hnd
    simp only [List.map_cons, List.mem_cons] at hvn
    push_neg at hvn
    by_cases he : k' = k
    · simp only [dictSet, if_pos he, List.map_cons, List.nodup_cons]
      exact ⟨fun hc => hvn.2 hc, hnd.2⟩
    · simp only [dictSet, if_neg he, List.map_cons, List.nodup_cons]
      constructor
      · intro hc
        rcases mem_map_dictSet _ hc with hold | hnew
        · exact hnd.1 hold
        · exact hvn.1 hnew.symm
      · exact ih k v hnd.2 hvn.2

/-- Stored sermons have pairwise-distinct URLs: the visited-set guarantees
each URL is stored at most once across the whole run. -/
theorem scrapeLoop_urls_nodup (fetch : String → Option (String × String)) :
    ∀ (links : List SermonLink) (ex visited : List String)
      (acc : List (String × SermonInfo)),
      (∀ u ∈ acc.map (·.2.url), u ∈ visited) →
      (acc.map (·.2.url)).Nodup →
      ((scrapeLoop fetch links ex visited acc).map (·.2.url)).Nodup := by
  intro links
  induction links with
  | nil => intro ex visited acc _ hnd; exact hnd
  | cons lk rest ih =>
    obtain ⟨url, title, cat⟩ := lk
    intro ex visited acc hvis hnd
    rw [scrapeLoop]
    by_cases hv : url ∈ visited
    · rw [if_pos hv]; exact ih ex visited acc hvis hnd
    · rw [if_neg hv]
      by_cases hex : url ∈ ex
      · rw [if_pos hex]
        exact ih ex _ acc (fun u hu => List.mem_cons_of_mem _ (hvis u hu)) hnd
      · rw [if_neg hex]
        rcases scrapeVisit_cases fetch url title cat acc with hsame | hstore
        · rw [hsame]
          exact ih ex _ acc (fun u hu => List.mem_cons_of_mem _ (hvis u hu)) hnd
        · obtain ⟨key, pageTitle, raw, _, _, hset⟩ := hstore
          rw [hset]
          have hfresh : url ∉ acc.map (·.2.url) := fun hc => hv (hvis url hc)
          refine ih ex _ _ ?_ (dictSet_urls_nodup acc _ _ hnd hfresh)
          intro u hu
          rcases mem_map_dictSet u hu with hold | hnew
          · exact List.mem_cons_of_mem _ (hvis u hold)
          · rw [hnew]; exact List.mem_cons_self _ _

/-! ## C4: incremental sync -/

theorem classifySync_cons_new {existing rest : List (String × SermonInfo)}
    {t : String} {s : SermonInfo} (hg : dictGet existing t = none) :
    classifySync existing ((t, s) :: rest)
      = ((t, s) :: (classifySync existing rest).1, (classifySync existing rest).2) := by
  rw [classifySync, hg]

theorem classifySync_cons_updated {existing rest : List (String × SermonInfo)}
    {t : String} {s e : SermonInfo} (hg : dictGet existing t = some e)
    (hu : s.url ≠ e.url) :
    classifySync existing ((t, s) :: rest)
      = ((classifySync existing rest).1, (t, s) :: (classifySync existing rest).2) := by
  rw [classifySync, hg]
  exact if_pos hu

theorem classifySync_cons_unchanged {existing rest : List (String × SermonInfo)}
    {t : String} {s e : SermonInfo} (hg : dictGet existing t = some e)
    (hu : ¬s.url ≠ e.url) :
    classifySync existing ((t, s) :: rest) = classifySync existing rest := by
  rw [classifySync, hg]
  exact if_neg hu

theorem classifySync_new (existing : List (String × SermonInfo)) :
    ∀ (current : List (String × SermonInfo)) (kv : String × SermonInfo),
      kv ∈ current → dictGet existing kv.1 = none →
      kv ∈ (classifySync existing current).1 := by
  intro current
  induction current with
  | nil => intro kv hm _; simp at hm
  | cons hd rest ih =>
    obtain ⟨t, s⟩ := hd
    intro kv hm hnone
    rcases List.mem_cons.mp hm with hm | hm
    · subst hm
      rw [classifySync_cons_new hnone]
      exact List.mem_cons_self _ _
    · have hr := ih kv hm hnone
      rcases hg : dictGet existing t with _ | e
      · rw [classifySync_cons_new hg]
        exact List.mem_cons_of_mem _ hr
      · by_cases hu : s.url ≠ e.url
        · rw [classifySync_cons_updated hg hu]; exact hr
        · rw [classifySync_cons_unchanged hg hu]; exact hr

theorem classifySync_keys_sub (existing : List (String × SermonInfo)) :
    ∀ (current : List (String × SermonInfo)),
      (∀ k ∈ dictKeys (classifySync existing current).1, k ∈ dictKeys current)
      ∧ (∀ k ∈ dictKeys (classifySync existing current).2, k ∈ dictKeys current) := by
  intro current
  induction current with
  | nil => constructor <;> (intro k hk; simp [classifySync, dictKeys] at hk)
  | cons hd rest ih =>
    obtain ⟨t, s⟩ := hd
    rcases hg : dictGet existing t with _ | e
    · rw [classifySync_cons_new hg]
      constructor
      · intro k hk
        rcases List.mem_cons.mp hk with hk | hk
        · rw [hk]; exact List.mem_cons_self _ _
        · exact List.mem_cons_of_mem _ (ih.1 k hk)
      · intro k hk
        exact List.mem_cons_of_mem _ (ih.2 k hk)
    · by_cases hu : s.url ≠ e.url
      · rw [classifySync_cons_updated hg hu]
        constructor
        · intro k hk
          exact List.mem_cons_of_mem _ (ih.1 k hk)
        · intro k hk
          rcases List.mem_cons.mp hk with hk | hk
          · rw [hk]; exact List.mem_cons_self _ _
          · exact List.mem_cons_of_mem _ (ih.2 k hk)
      · rw [classifySync_cons_unchanged hg hu]
        constructor
        · intro k hk; exact List.mem_cons_of_mem _ (ih.1 k hk)
        · intro k hk; exact List.mem_cons_of_mem _ (ih.2 k hk)

theorem classifySync_unchanged (existing : List (String × SermonInfo)) :
    ∀ (current : List (String × SermonInfo)), (dictKeys current).Nodup →
      ∀ kv ∈ current, ∀ e, dictGet existing kv.1 = some e → e.url = kv.2.url →
        kv.1 ∉ dictKeys (classifySync existing current).1
        ∧ kv.1 ∉ dictKeys (classifySync existing current).2 := by
  intro current
  induction current with
  | nil => intro _ kv hm; simp at hm
  | cons hd rest ih =>
    obtain ⟨t, s⟩ := hd
    intro hnd kv hm e hsome hurl
    have hnd' : (dictKeys rest).Nodup := (List.nodup_cons.mp hnd).2
    have htn : t ∉ dictKeys rest := (List.nodup_cons.mp hnd).1
    rcases List.mem_cons.mp hm with hm | hm
    · subst hm
      rw [classifySync_cons_unchanged hsome (by simp [hurl])]
      constructor
      · intro hc
        exact htn ((classifySync_keys_sub existing rest).1 _ hc)
      · intro hc
        exact htn ((classifySync_keys_sub existing rest).2 _ hc)
    · have hkt : kv.1 ≠ t := by
        intro hc
        exact htn (hc ▸ (List.mem_map_of_mem Prod.fst hm))
      have hr := ih hnd' kv hm e hsome hurl
      rcases hg : dictGet existing t with _ | e'
      · rw [classifySync_cons_new hg]
        refine ⟨?_, hr.2⟩
        intro hc
        rcases List.mem_cons.mp hc with hc | hc
        · exact hkt hc
        · exact hr.1 hc
      · by_cases hu : s.url ≠ e'.url
        · rw [classifySync_cons_updated hg hu]
          refine ⟨hr.1, ?_⟩
          intro hc
          rcases List.mem_cons.mp hc with hc | hc
          · exact hkt hc
          · exact hr.2 hc
        · rw [classifySync_cons_unchanged hg hu]; exact hr

theorem mem_existingUrls {existing : List (String × SermonInfo)}
    {k : String} {e : SermonInfo} (hg : dictGet existing k = some e)
    (hne : e.url ≠ "") : e.url ∈ existingUrls existing := by
  rw [existingUrls, List.mem_filter]
  exact ⟨List.mem_map_of_mem (·.2.url) (dictGet_mem hg), by simp [hne]⟩

theorem stageVectors_url_mem :
    ∀ (sermons : List (String × SermonInfo)), ∀ v ∈ stageVectors sermons,
      ∃ kv ∈ sermons, v.url = kv.2.url := by
  intro sermons v hv
  obtain ⟨l, hl, hvl⟩ := List.mem_flatten.mp hv
  obtain ⟨ts, hts, htl⟩ := List.mem_map.mp hl
  subst htl
  by_cases hc : ts.2.content = "" ∨ ts.2.content.length < 50
  · rw [if_pos hc] at hvl; simp at hvl
  · rw [if_neg hc] at hvl
    obtain ⟨ic, _, hic⟩ := List.mem_map.mp hvl
    subst hic
    exact ⟨ts, hts, rfl⟩

/-- C4: the sync classification marks a key absent from the previous
snapshot as new, and a key present in both snapshots with the same URL as
unchanged (neither new nor updated); and under the default incremental run,
every document handed to the index writer — hence every staged vector — is
new or updated with respect to the previous snapshot, because
`scrape_sermons` skips every URL already recorded there: unchanged
documents are never re-embedded. -/
theorem C4_incremental_sync (existing current : List (String × SermonInfo))
    (links : List SermonLink) (fetch : String → Option (String × String))
    (hwf : ∀ kv ∈ existing, kv.2.url ≠ "")
    (hkeys : (dictKeys current).Nodup) :
    (∀ kv ∈ current, dictGet existing kv.1 = none →
      kv ∈ (classifySync existing current).1)
    ∧ (∀ kv ∈ current, ∀ e, dictGet existing kv.1 = some e → e.url = kv.2.url →
        kv.1 ∉ dictKeys (classifySync existing current).1
        ∧ kv.1 ∉ dictKeys (classifySync existing current).2)
    ∧ (∀ kv ∈ scrapeSermons links (existingUrls existing) fetch,
        dictGet existing kv.1 = none
        ∨ ∃ e, dictGet existing kv.1 = some e ∧ e.url ≠ kv.2.url)
    ∧ (∀ v ∈ stageVectors (scrapeSermons links (existingUrls existing) fetch),
        v.url ∉ existingUrls existing) := by
  have hscrape : ∀ kv ∈ scrapeSermons links (existingUrls existing) fetch,
      kv.2.url ∉ existingUrls existing := by
    intro kv hkv
    exact scrapeLoop_url_not_ex fetch _ _ _ _ (by intro kv' h; simp at h) kv hkv
  refine ⟨classifySync_new existing current,
    fun kv hm e hg hu => classifySync_unchanged existing current hkeys kv hm e hg hu,
    ?_, ?_⟩
  · intro kv hkv
    rcases hg : dictGet existing kv.1 with _ | e
    · exact Or.inl rfl
    · refine Or.inr ⟨e, rfl, ?_⟩
      intro hc
      exact hscrape kv hkv (hc ▸ mem_existingUrls hg (hwf _ (dictGet_mem hg)))
  · intro v hv
    obtain ⟨kv, hkv, hvu⟩ := stageVectors_url_mem _ v hv
    rw [hvu]
    exact hscrape kv hkv

/-- Previous snapshot used by the C4 witness. -/
def c4existing : List (String × SermonInfo) :=
  [("Sermon1", ⟨demoContent, "https://w/x.html", "C"⟩)]

/-- Current crawl used by the C4 witness: Sermon1 unchanged, Sermon2 new. -/
def c4current : List (String × SermonInfo) :=
  [("Sermon1", ⟨demoContent, "https://w/x.html", "C"⟩),
   ("Sermon2", ⟨demoContent, "https://w/y.html", "C"⟩)]

/-- Witness for C4: in the spec's sync scenario, Sermon2 (absent from the
previous snapshot) is classified as new. -/
theorem C4_witness :
    ("Sermon2", (⟨demoContent, "https://w/y.html", "C"⟩ : SermonInfo))
      ∈ (classifySync c4existing c4current).1 :=
  (C4_incremental_sync c4existing c4current [] (fun _ => none)
    (by decide) (by decide)).1
    ("Sermon2", ⟨demoContent, "https://w/y.html", "C"⟩) (by decide) (by decide)

/-! ## C8: short documents are discarded -/

/-- C8: a document whose cleaned text is shorter than the 200-character
minimum is discarded by the crawler — no entry of the scraped mapping (the
mapping that is persisted by `save_sermons` and handed to
`embed_and_upsert`) carries its URL, and no staged index record carries its
URL either. -/
theorem C8_short_docs_discarded (links : List SermonLink) (ex : List String)
    (fetch : String → Option (String × String)) (u pageTitle raw : String)
    (hf : fetch u = some (pageTitle, raw))
    (hshort : (clean_content (remove_non_ascii raw)).length < 200) :
    (∀ kv ∈ scrapeSermons links ex fetch, kv.2.url ≠ u)
    ∧ (∀ v ∈ stageVectors (scrapeSermons links ex fetch), v.url ≠ u) := by
  have hmain : ∀ kv ∈ scrapeSermons links ex fetch, kv.2.url ≠ u := by
    intro kv hkv hc
    obtain ⟨h200, tp, htp, hcontent⟩ :=
      scrapeLoop_stored_valid fetch _ _ _ _ (by intro kv' h; simp at h) kv hkv
    rw [hc, hf] at htp
    cases htp
    rw [hcontent] at h200
    simp at h200
    omega
  refine ⟨hmain, ?_⟩
  intro v hv hc
  obtain ⟨kv, hkv, hvu⟩ := stageVectors_url_mem _ v hv
  exact hmain kv hkv (by rw [← hvu, hc])

/-- The fetcher for the C8 witness: one invalid short page, one valid page. -/
def c8fetch : String → Option (String × String) := fun u =>
  if u = "https://w/short.html" then some ("Short Doc", "too short")
  else if u = "https://w/long.html" then some ("Long Doc", demoContent)
  else none

/-- Links for the C8 witness. -/
def c8links : List SermonLink :=
  [("https://w/short.html", "Short Doc", "C"), ("https://w/long.html", "Long Doc", "C")]

/-- Witness for C8: the valid stored document is not the short one. -/
theorem C8_witness :
    (("Long Doc", (⟨demoContent, "https://w/long.html", "C"⟩ : SermonInfo))
      : String × SermonInfo).2.url ≠ "https://w/short.html" :=
  (C8_short_docs_discarded c8links [] c8fetch "https://w/short.html" "Short Doc" "too short"
    (by decide) (by decide)).1
    ("Long Doc", ⟨demoContent, "https://w/long.html", "C"⟩) (by decide)

/-! ## C9: global URL dedup, one visit per document -/

theorem dedupByUrl_spec :
    ∀ (links : List SermonLink) (seen : List String),
      ((dedupByUrl links seen).map (·.1)).Nodup
      ∧ ∀ lk ∈ dedupByUrl links seen, lk.1 ∉ seen := by
  intro links
  induction links with
  | nil => intro seen; exact ⟨List.nodup_nil, by intro lk h; simp [dedupByUrl] at h⟩
  | cons hd rest ih =>
    obtain ⟨u, t, c⟩ := hd
    intro seen
    by_cases hu : u ∈ seen
    · rw [dedupByUrl, if_pos hu]
      exact ⟨(ih seen).1, (ih seen).2⟩
    · rw [dedupByUrl, if_neg hu]
      constructor
      · rw [List.map_cons, List.nodup_cons]
        constructor
        · intro hc
          obtain ⟨lk, hlk, hlku⟩ := List.mem_map.mp hc
          exact (ih (u :: seen)).2 lk hlk (hlku ▸ List.mem_cons_self _ _)
        · exact (ih (u :: seen)).1
      · intro lk hlk
        rcases List.mem_cons.mp hlk with hlk | hlk
        · rw [hlk]; exact hu
        · exact fun hc => (ih (u :: seen)).2 lk hlk (List.mem_cons_of_mem _ hc)

/-- The two-category navigation graph of the spec's dedup test: document D
is linked from categories A and B; document E only from A. -/
def c9links : List SermonLink :=
  [("https://w/d.html", "Doc D", "A"), ("https://w/e.html", "Doc E", "A"),
   ("https://w/d.html", "Doc D", "B")]

/-- The fetcher for the C9 scenario: both documents have valid bodies. -/
def c9fetch : String → Option (String × String) := fun u =>
  if u = "https://w/d.html" then some ("Doc D", demoContent)
  else if u = "https://w/e.html" then some ("Doc E", demoContent)
  else none

/-- C9: the crawler deduplicates document links globally by canonical URL
(the deduplicated link list has pairwise-distinct URLs, for every input),
each URL is stored at most once across the whole run (the output mapping's
URLs are pairwise distinct, across categories), and in the spec's concrete
two-category graph document D appears exactly once in the crawler's
output. -/
theorem C9_dedup_once (links : List SermonLink) (ex : List String)
    (fetch : String → Option (String × String)) :
    ((dedupByUrl links []).map (·.1)).Nodup
    ∧ ((scrapeSermons links ex fetch).map (·.2.url)).Nodup
    ∧ ((scrapeSermons c9links [] c9fetch).filter
        (fun kv => kv.2.url == "https://w/d.html")).length = 1 := by
  refine ⟨(dedupByUrl_spec links []).1, ?_, ?_⟩
  · exact scrapeLoop_urls_nodup fetch _ _ _ _ (by intro u h; simp at h) List.nodup_nil
  · decide

/-! ## C5: the snapshot is persisted before upserting and masks failures -/

/-- The single sermon of the C5 failing scenario. -/
def c5url : String := "https://www.insightfulsermons.com/faith-in-trials.html"

/-- Its navigation link. -/
def c5links : List SermonLink := [(c5url, "Faith In Trials", "Faith")]

/-- Its page fetch: a valid 200-character body. -/
def c5fetch : String → Option (String × String) := fun u =>
  if u = c5url then some ("Faith In Trials", demoContent) else none

/-- The snapshot persisted by run 1 (written at scrape_and_embed.py line
527, BEFORE the upsert at line 530). -/
def c5snap : List (String × SermonInfo) := scrapeSermons c5links [] c5fetch

/-- C5 (the code masks partial indexing failures): run 1 scrapes the sermon
and persists it in the snapshot even though its only upsert batch fails
(nothing reaches the index and `embed_and_upsert` returns `False`); run 2
then finds the sermon's URL in the snapshot, skips it, scrapes nothing and
exits — the failed document is never re-upserted, contrary to the claim. -/
theorem C5_failure_masked :
    mainRun [] c5links c5fetch (fun _ => true) = some (c5snap, ([], false))
    ∧ dictGet c5snap "Faith In Trials" = some ⟨demoContent, c5url, "Faith"⟩
    ∧ mainRun c5snap c5links c5fetch (fun _ => false) = none := by
  refine ⟨by decide, by decide, by decide⟩

/-! ## C10: the normalizer is minimal -/

theorem pyWordsAux_cons_space {c : Char} (h : isPySpace c = true) (l : List Char) :
    pyWordsAux (c :: l) = ([], pyWords l) := by
  simp [pyWordsAux, pyWords, h]

theorem pyWordsAux_cons_nonspace {c : Char} (h : isPySpace c = false) (l : List Char) :
    pyWordsAux (c :: l) = (c :: (pyWordsAux l).1, (pyWordsAux l).2) := by
  simp [pyWordsAux, h]

theorem pyWords_congr {l1 l2 : List Char} (h : pyWordsAux l1 = pyWordsAux l2) :
    pyWords l1 = pyWords l2 := by
  simp only [pyWords, h]

theorem pyWords_cons_space {c : Char} (h : isPySpace c = true) (l : List Char) :
    pyWords (c :: l) = pyWords l := by
  simp [pyWords, pyWordsAux_cons_space h]

theorem pyWords_dropWhile_space : ∀ l : List Char, pyWords (l.dropWhile isPySpace) = pyWords l := by
  intro l
  induction l with
  | nil => rfl
  | cons c t ih =>
    by_cases hc : isPySpace c = true
    · rw [show (c :: t).dropWhile isPySpace = t.dropWhile isPySpace from by
        simp [List.dropWhile_cons, hc]]
      rw [ih, pyWords_cons_space hc]
    · rw [show (c :: t).dropWhile isPySpace = c :: t from by
        simp [List.dropWhile_cons, hc]]

theorem collapseWsAux_true :
    ∀ l : List Char, collapseWsAux l true = collapseWsAux (l.dropWhile isPySpace) false := by
  intro l
  induction l with
  | nil => rfl
  | cons c t ih =>
    by_cases hc : isPySpace c = true
    · rw [show collapseWsAux (c :: t) true = collapseWsAux t true from by
        simp [collapseWsAux, hc]]
      rw [ih]
      rw [show (c :: t).dropWhile isPySpace = t.dropWhile isPySpace from by
        simp [List.dropWhile_cons, hc]]
    · have hc' : isPySpace c = false := by simpa using hc
      rw [show (c :: t).dropWhile isPySpace = c :: t from by
        simp [List.dropWhile_cons, hc']]
      simp [collapseWsAux, hc']

theorem pyWordsAux_collapseWsAux :
    ∀ (n : Nat) (l : List Char), l.length ≤ n →
      pyWordsAux (collapseWsAux l false) = pyWordsAux l := by
  intro n
  induction n with
  | zero =>
    intro l hl
    have : l = [] := List.eq_nil_of_length_eq_zero (Nat.le_zero.mp hl)
    subst this; rfl
  | succ n ih =>
    intro l hl
    cases l with
    | nil => rfl
    | cons c t =>
      simp only [List.length_cons, Nat.succ_le_succ_iff] at hl
      by_cases hc : isPySpace c = true
      · rw [show collapseWsAux (c :: t) false = ' ' :: collapseWsAux t true from by
          simp [collapseWsAux, hc]]
        rw [collapseWsAux_true]
        rw [pyWordsAux_cons_space (by decide), pyWordsAux_cons_space hc]
        have hlen : (t.dropWhile isPySpace).length ≤ n :=
          le_trans ((List.dropWhile_sublist isPySpace).length_le) hl
        rw [pyWords_congr (ih (t.dropWhile isPySpace) hlen), pyWords_dropWhile_space]
      · have hc' : isPySpace c = false := by simpa using hc
        rw [show collapseWsAux (c :: t) false = c :: collapseWsAux t false from by
          simp [collapseWsAux, hc']]
        rw [pyWordsAux_cons_nonspace hc', pyWordsAux_cons_nonspace hc', ih t hl]

theorem dropTrailingWs_nil_words :
    ∀ l : List Char, dropTrailingWs l = [] → pyWordsAux l = ([], []) := by
  intro l
  induction l with
  | nil => intro _; rfl
  | cons c t ih =>
    intro h
    rw [dropTrailingWs] at h
    by_cases hcond : ((dropTrailingWs t).isEmpty && isPySpace c) = true
    · obtain ⟨he, hsp⟩ := Bool.and_eq_true_iff.mp hcond
      have h1 : dropTrailingWs t = [] := List.isEmpty_iff.mp he
      rw [pyWordsAux_cons_space hsp]
      simp [pyWords, ih h1]
    · rw [if_neg hcond] at h
      simp at h

theorem pyWordsAux_dropTrailingWs :
    ∀ l : List Char, pyWordsAux (dropTrailingWs l) = pyWordsAux l := by
  intro l
  induction l with
  | nil => rfl
  | cons c t ih =>
    rw [dropTrailingWs]
    by_cases hcond : ((dropTrailingWs t).isEmpty && isPySpace c) = true
    · obtain ⟨he, hsp⟩ := Bool.and_eq_true_iff.mp hcond
      have h1 : dropTrailingWs t = [] := List.isEmpty_iff.mp he
      rw [if_pos hcond, pyWordsAux_cons_space hsp]
      have h2 : pyWordsAux t = ([], []) := dropTrailingWs_nil_words t h1
      simp [pyWords, pyWordsAux, h2]
    · rw [if_neg hcond]
      by_cases hsp : isPySpace c = true
      · rw [pyWordsAux_cons_space hsp, pyWordsAux_cons_space hsp, pyWords_congr ih]
      · have hsp' : isPySpace c = false := by simpa using hsp
        rw [pyWordsAux_cons_nonspace hsp', pyWordsAux_cons_nonspace hsp', ih]

/-- Whitespace collapsing plus strip preserve the Python word sequence. -/
theorem pyWords_strip_collapse (l : List Char) :
    pyWords (pyStripChars (collapseWs l)) = pyWords l := by
  rw [pyStripChars, pyWords_congr (pyWordsAux_dropTrailingWs _), pyWords_dropWhile_space,
    collapseWs, pyWords_congr (pyWordsAux_collapseWsAux l.length l le_rfl)]

theorem removeBracketsGo_id :
    ∀ (fuel : Nat) (l : List Char), '[' ∉ l → removeBracketsGo fuel l = l := by
  intro fuel
  induction fuel with
  | zero => intro l _; cases l <;> rfl
  | succ n ih =>
    intro l hl
    cases l with
    | nil => rfl
    | cons c t =>
      have hc : ¬(c == '[') = true := by
        simp only [beq_iff_eq]
        intro hcc
        exact hl (hcc ▸ List.mem_cons_self _ _)
      rw [removeBracketsGo, if_neg hc, ih t (fun hm => hl (List.mem_cons_of_mem _ hm))]

theorem removeBrackets_id {l : List Char} (h : '[' ∉ l) : removeBrackets l = l :=
  removeBracketsGo_id l.length l h

theorem stripSummaryLabel_id {l : List Char}
    (h10 : ((l.dropWhile isPySpace).map Char.toLower).take 10 ≠ "summarized".data)
    (h7 : ((l.dropWhile isPySpace).map Char.toLower).take 7 ≠ "summary".data) :
    stripSummaryLabel l = l := by
  rw [stripSummaryLabel]
  simp only [if_neg h10, if_neg h7]

/-- C10: normalization is minimal and targeted — on any text with no `[`
and no leading (case-insensitive) `summary`/`summarized` label, the
normalizer only collapses whitespace, preserving the exact word sequence;
concretely, a scripture citation keeps "says" and everything after it while
only the bracketed footnote is dropped, and trailing content matching
"summary" is never deleted. -/
theorem C10_normalizer_minimal :
    (∀ s : String, '[' ∉ s.data →
      ((s.data.dropWhile isPySpace).map Char.toLower).take 10 ≠ "summarized".data →
      ((s.data.dropWhile isPySpace).map Char.toLower).take 7 ≠ "summary".data →
      pyWords (clean_content s).data = pyWords s.data)
    ∧ clean_content "John 3:16 says that God so loved [1] the world"
        = "John 3:16 says that God so loved the world"
    ∧ clean_content "He closed with a summary" = "He closed with a summary" := by
  refine ⟨?_, by decide, by decide⟩
  intro s h1 h10 h7
  by_cases hs : s = ""
  · subst hs; rfl
  · rw [clean_content, if_neg hs, removeBrackets_id h1, stripSummaryLabel_id h10 h7]
    exact pyWords_strip_collapse s.data

/-- Witness for C10 on a concrete bracket-free, label-free text. -/
theorem C10_witness :
    pyWords (clean_content "In the beginning  was the Word").data
      = pyWords "In the beginning  was the Word".data :=
  C10_normalizer_minimal.1 "In the beginning  was the Word"
    (by decide) (by decide) (by decide)

end Biblibot
